import Mathlib

/-!
Shallow embedding of the Infineon XMC4000 ARM debug sequence
(`probe-rs/src/architecture/arm/sequences/infineon.rs`).

The hooks `reset_catch_set`, `reset_catch_clear`, `reset_system` and
`reset_hardware_deassert` are modelled as pure functions over

* a register store `mem : Nat -> Nat` (32-bit word reads from target memory),
* the cross-call `halt_after_reset_state` slot
  (`Option HaltAfterResetState`), and
* for the polling hooks, a list of `(elapsed-ms, read-value)` samples giving
  the value each successive hardware read returns and the wall-clock elapsed
  time (relative to the `Instant::now()` the surrounding loop compares
  against) at which the read is observed.

Each hook returns its result together with the ordered list of
`(address, value)` register writes it issued and the slot it leaves behind.
Machine integers are `Nat` with explicit `% 2^32` where overflow matters.
-/

set_option maxHeartbeats 1000000

/-- A register-store update: subsequent reads of `a` see `v`. -/
def writeWord (m : Nat → Nat) (a v : Nat) : Nat → Nat :=
  fun b => if b = a then v else m b

/-- SCU STCON startup configuration register address (`Stcon::ADDRESS`). -/
def Stcon.ADDRESS : Nat := 0x50004010

/-- STCON bitfield getter `hwcon` (bits 1:0). -/
def Stcon.hwcon (x : Nat) : Nat := x &&& 0x3

/-- STCON bitfield getter `swcon` (bits 11:8). -/
def Stcon.swcon (x : Nat) : Nat := (x >>> 8) &&& 0xF

/-- STCON bitfield setter `set_swcon` (bits 11:8, masked insert as performed
by the `bitfield` crate). -/
def Stcon.set_swcon (x v : Nat) : Nat :=
  (x &&& 0xFFFFF0FF) ||| ((v &&& 0xF) <<< 8)

/-- Modelled from the spec: the armv7m breakpoint-unit control register
(`FpCtrl`, defined in `armv7m.rs` which is not under `src/`): FP_CTRL at
0xE0002000 with ENABLE at bit 0, KEY at bit 1 and REV at bits 31:28. -/
def FpCtrl.ADDRESS : Nat := 0xE0002000

/-- Modelled from the spec: FP_CTRL ENABLE flag, bit 0. -/
def FpCtrl.enable (x : Nat) : Bool := x.testBit 0

/-- Modelled from the spec: FP_CTRL KEY flag, bit 1. -/
def FpCtrl.key (x : Nat) : Bool := x.testBit 1

/-- Modelled from the spec: FP_CTRL REV field, bits 31:28 (the
breakpoint-unit hardware revision). -/
def FpCtrl.rev (x : Nat) : Nat := (x >>> 28) &&& 0xF

/-- Modelled from the spec: FP_CTRL ENABLE setter. -/
def FpCtrl.set_enable (x : Nat) (b : Bool) : Nat :=
  if b then x ||| 0x1 else x &&& 0xFFFFFFFE

/-- Modelled from the spec: FP_CTRL KEY setter. -/
def FpCtrl.set_key (x : Nat) (b : Bool) : Nat :=
  if b then x ||| 0x2 else x &&& 0xFFFFFFFD

/-- Modelled from the spec: address of the first breakpoint comparator slot
(`FpRev1CompX::ADDRESS`, FP_COMP0 at 0xE0002008; `armv7m.rs` is not under
`src/`). -/
def FpRev1CompX.ADDRESS : Nat := 0xE0002008

/-- Modelled from the spec: DHCSR debug halt/status register address
(`armv7m.rs` is not under `src/`). -/
def Dhcsr.ADDRESS : Nat := 0xE000EDF0

/-- Modelled from the spec: DHCSR S_RESET_ST status flag, bit 25. -/
def Dhcsr.s_reset_st (x : Nat) : Bool := x.testBit 25

/-- Modelled from the spec: DHCSR S_HALT status flag, bit 17. -/
def Dhcsr.s_halt (x : Nat) : Bool := x.testBit 17

/-- Modelled from the spec: AIRCR register address (`armv7m.rs` is not under
`src/`). -/
def Aircr.ADDRESS : Nat := 0xE000ED0C

/-- Modelled from the spec: the AIRCR word written by `reset_system`
(VECTKEY 0x05FA in bits 31:16 plus SYSRESETREQ at bit 2). -/
def aircrResetRequest : Nat := 0x05FA0004

/-- Modelled from the spec: the nRESET readback flag of the CMSIS-DAP pin
word (`Pins`, bit 7; the `Pins` bitfield is not under `src/`). -/
def Pins.nreset (x : Nat) : Bool := x.testBit 7

/-- The cross-call state captured by `reset_catch_set` and consumed by
`reset_catch_clear` (`HaltAfterResetState` in the source, `#[derive(Default)]`). -/
structure HaltAfterResetState where
  fpctrl_enabled : Bool
  fpcomp0 : Nat
deriving DecidableEq

instance : Inhabited HaltAfterResetState := ⟨⟨false, 0⟩⟩

/-- Errors surfaced by the modelled hooks: a bounded poll timing out
(`DebugProbeError::Timeout`) or the unexpected-revision error built with
`anyhow!` in `reset_catch_set`, carrying the offending revision. -/
inductive XmcError where
  | timeout : XmcError
  | unexpectedFpRev : Nat → XmcError
deriving DecidableEq

/-- Result of a memory-hook call: outcome, ordered register writes issued,
and the `halt_after_reset_state` slot left behind. -/
structure HookResult where
  res : Except XmcError Unit
  writes : List (Nat × Nat)
  slot : Option HaltAfterResetState

/-- The application entry address computed at line 139 of the source:
`core.read_word_32(0x0C000004)? + 1` (u32 addition). -/
def xmcApplicationEntry (mem : Nat → Nat) : Nat :=
  (mem 0x0C000004 + 1) % 2 ^ 32

/-- The STCON writes issued by the boot-mode normalization step of
`reset_catch_set`: one write clearing `swcon` when it is nonzero, none
otherwise. -/
def stconNormWrites (mem : Nat → Nat) : List (Nat × Nat) :=
  if Stcon.swcon (mem Stcon.ADDRESS) ≠ 0 then
    [(Stcon.ADDRESS, Stcon.set_swcon (mem Stcon.ADDRESS) 0)]
  else []

/-- The register store after the boot-mode normalization step of
`reset_catch_set`. -/
def memAfterStcon (mem : Nat → Nat) : Nat → Nat :=
  if Stcon.swcon (mem Stcon.ADDRESS) ≠ 0 then
    writeWord mem Stcon.ADDRESS (Stcon.set_swcon (mem Stcon.ADDRESS) 0)
  else mem

/-- The FP_CTRL word `reset_catch_set` writes to enable the breakpoint unit:
`FpCtrl(0)` with `set_enable(true)` and `set_key(true)`. -/
def fpCtrlEnableKey : Nat := FpCtrl.set_key (FpCtrl.set_enable 0 true) true

/-- The FP_CTRL word `reset_catch_clear` writes back: `FpCtrl(0)` with
`set_key(true)` and `set_enable(original_state.fpctrl_enabled)`. -/
def fpCtrlRestore (b : Bool) : Nat := FpCtrl.set_enable (FpCtrl.set_key 0 true) b

/-- `XMC4000::reset_catch_set`, parameterized over the two comparator
encoders `FpRev1CompX::breakpoint_configuration` (fallible, used via `?` in
the source) and `FpRev2CompX::breakpoint_configuration`; both live in
`armv7m.rs`, which is not under `src/`.  Faithful to the source order:
normalize STCON, compute the entry address, capture the old FP state into
the slot (overwriting it), write the fresh enable+key FP_CTRL word, then
branch on `fp_ctrl.rev()` of that freshly constructed word (the source
shadows the value read from hardware at this point) to pick the comparator
encoding, and finally write the comparator. -/
def reset_catch_set (enc1 : Nat → Except XmcError Nat) (enc2 : Nat → Nat)
    (mem : Nat → Nat) (slot0 : Option HaltAfterResetState) : HookResult :=
  let mem1 := memAfterStcon mem
  let application_entry := xmcApplicationEntry mem1
  let fpCtrlOld := mem1 FpCtrl.ADDRESS
  let fpcomp0 := mem1 FpRev1CompX.ADDRESS
  let slot1 : Option HaltAfterResetState :=
    some ⟨FpCtrl.enable fpCtrlOld, fpcomp0⟩
  let baseWrites := stconNormWrites mem ++ [(FpCtrl.ADDRESS, fpCtrlEnableKey)]
  let valE : Except XmcError Nat :=
    if FpCtrl.rev fpCtrlEnableKey = 0 then enc1 application_entry
    else if FpCtrl.rev fpCtrlEnableKey = 1 then Except.ok (enc2 application_entry)
    else Except.error (XmcError.unexpectedFpRev (FpCtrl.rev fpCtrlEnableKey))
  match valE with
  | Except.error e => ⟨Except.error e, baseWrites, slot1⟩
  | Except.ok v =>
      ⟨Except.ok (), baseWrites ++ [(FpRev1CompX.ADDRESS, v)], slot1⟩

/-- `XMC4000::reset_catch_clear`: take the slot (substituting the derived
`Default` when absent), write FP_CTRL back with key set and the captured
enable flag, then write the captured comparator word back. -/
def reset_catch_clear (slot0 : Option HaltAfterResetState) : HookResult :=
  let st := slot0.getD default
  ⟨Except.ok (),
    [(FpCtrl.ADDRESS, fpCtrlRestore st.fpctrl_enabled),
     (FpRev1CompX.ADDRESS, st.fpcomp0)],
    none⟩

/-- One bounded polling loop of the source, over the list of
`(elapsed-ms, value)` samples its successive reads observe: break on the
first read satisfying the predicate, fail with Timeout when a read is
observed with elapsed time strictly above the deadline (the success check
comes first, exactly as in the source loops).  `none` means the sample list
was exhausted before the loop resolved. -/
def pollBit (deadline : Nat) (pred : Nat → Bool) :
    List (Nat × Nat) → Option (Except XmcError Unit)
  | [] => none
  | (t, v) :: rest =>
    if pred v then some (Except.ok ())
    else if deadline < t then some (Except.error XmcError.timeout)
    else pollBit deadline pred rest

/-- Result of the `reset_system` hook: outcome (with `none` for an exhausted
sample trace) and the register writes issued before the polling starts. -/
structure ResetSystemResult where
  res : Option (Except XmcError Unit)
  writes : List (Nat × Nat)

/-- The two writes `reset_system` issues before polling: clear
SCU_RESET->RSTCLR (0x5000_4408, RSCLR bit) and request a system reset via
AIRCR. -/
def resetSystemWrites : List (Nat × Nat) :=
  [(0x50004408, 1), (Aircr.ADDRESS, aircrResetRequest)]

/-- `XMC4000::reset_system`.  `resetSamples` times are relative to the
`Instant::now()` taken before the S_RESET_ST loop.  `dapsaSamples` and
`haltSamples` times are both relative to the `Instant::now()` taken before
the DAPSA loop: the source halt loop reuses that `start` binding for its
1000 ms deadline check rather than taking a fresh one.  The halt loop runs
only when the `halt_after_reset_state` slot is present (`is_some`); the
slot itself is not modified. -/
def reset_system (slot : Option HaltAfterResetState)
    (resetSamples dapsaSamples haltSamples : List (Nat × Nat)) :
    ResetSystemResult :=
  match pollBit 500 (fun v => !(Dhcsr.s_reset_st v)) resetSamples with
  | none => ⟨none, resetSystemWrites⟩
  | some (Except.error e) => ⟨some (Except.error e), resetSystemWrites⟩
  | some (Except.ok _) =>
    match pollBit 500 (fun v => v != 0) dapsaSamples with
    | none => ⟨none, resetSystemWrites⟩
    | some (Except.error e) => ⟨some (Except.error e), resetSystemWrites⟩
    | some (Except.ok _) =>
      if slot.isSome then
        match pollBit 1000 (fun v => Dhcsr.s_halt v) haltSamples with
        | none => ⟨none, resetSystemWrites⟩
        | some r => ⟨some r, resetSystemWrites⟩
      else ⟨some (Except.ok ()), resetSystemWrites⟩

/-- Result of `reset_hardware_deassert`: outcome, total milliseconds slept,
and the number of readback polls performed inside the wait loop. -/
structure DeassertResult where
  res : Except XmcError Unit
  sleptMs : Nat
  polls : Nat

/-- The `while start.elapsed() < 1s` readback loop of
`reset_hardware_deassert`, over the `(elapsed-ms, readback)` samples of its
successive `swj_pins` calls; returns (milliseconds slept, polls performed).
The loop exits when the elapsed check fails or when the nRESET readback
(cast to `u8` in the source) is high; each non-breaking iteration sleeps
100 ms. -/
def deassertLoop : List (Nat × Nat) → Nat × Nat
  | [] => (0, 0)
  | (t, v) :: rest =>
    if 1000 ≤ t then (0, 0)
    else if Pins.nreset (v % 256) then (0, 1)
    else
      let r := deassertLoop rest
      (r.1 + 100, r.2 + 1)

/-- `XMC4000::reset_hardware_deassert`: the initial `swj_pins` call releases
nRST and its readback decides `can_read_pins` (sentinel 0xFFFF_FFFF means
readback unsupported).  With readback supported the source runs the wait
loop and then unconditionally logs an error and returns Timeout — the
`break` on a high readback falls through to the same `return Err`.  Without
readback it sleeps a fixed 100 ms and returns success. -/
def reset_hardware_deassert (initialReadback : Nat)
    (samples : List (Nat × Nat)) : DeassertResult :=
  if initialReadback ≠ 0xFFFFFFFF then
    let r := deassertLoop samples
    ⟨Except.error XmcError.timeout, r.1, r.2⟩
  else
    ⟨Except.ok (), 100, 0⟩

/-- Reads at addresses other than STCON are unaffected by the boot-mode
normalization write. -/
theorem memAfterStcon_apply (mem : Nat → Nat) (a : Nat)
    (h : a ≠ Stcon.ADDRESS) : memAfterStcon mem a = mem a := by
  unfold memAfterStcon writeWord
  split
  · simp [h]
  · rfl

/-- The freshly constructed FP_CTRL enable word has revision field zero. -/
theorem fpCtrlEnableKey_rev : FpCtrl.rev fpCtrlEnableKey = 0 := by decide

/-- The FP_CTRL restore word carries exactly the requested enable flag. -/
theorem fpCtrlRestore_enable (b : Bool) :
    FpCtrl.enable (fpCtrlRestore b) = b := by cases b <;> decide

/-- Unfolding of `reset_catch_set`: the slot always captures the
pre-existing FP_CTRL enable flag and FP_COMP0 word, the writes are the
STCON normalization followed by the FP_CTRL enable write and (on encoder
success) the comparator write, and the rev-0 branch is always the one
taken. -/
theorem reset_catch_set_eq (enc1 : Nat → Except XmcError Nat)
    (enc2 : Nat → Nat) (mem : Nat → Nat)
    (slot0 : Option HaltAfterResetState) :
    reset_catch_set enc1 enc2 mem slot0 =
      match enc1 (xmcApplicationEntry (memAfterStcon mem)) with
      | Except.error e =>
          ⟨Except.error e,
            stconNormWrites mem ++ [(FpCtrl.ADDRESS, fpCtrlEnableKey)],
            some ⟨FpCtrl.enable (mem FpCtrl.ADDRESS),
              mem FpRev1CompX.ADDRESS⟩⟩
      | Except.ok v =>
          ⟨Except.ok (),
            stconNormWrites mem ++
              [(FpCtrl.ADDRESS, fpCtrlEnableKey), (FpRev1CompX.ADDRESS, v)],
            some ⟨FpCtrl.enable (mem FpCtrl.ADDRESS),
              mem FpRev1CompX.ADDRESS⟩⟩ := by
  have h1 : memAfterStcon mem FpCtrl.ADDRESS = mem FpCtrl.ADDRESS :=
    memAfterStcon_apply mem _ (by decide)
  have h2 : memAfterStcon mem FpRev1CompX.ADDRESS = mem FpRev1CompX.ADDRESS :=
    memAfterStcon_apply mem _ (by decide)
  unfold reset_catch_set
  simp only [fpCtrlEnableKey_rev, h1, h2]
  rw [if_pos trivial]
  cases henc : enc1 (xmcApplicationEntry (memAfterStcon mem)) <;> simp [henc]

/-- C1: for any pre-existing breakpoint-unit enable flag and
first-comparator value, `reset_catch_set` followed by `reset_catch_clear`
(with no failure in between) restores both registers: the FP_CTRL word
written back carries exactly the enable flag captured before
`reset_catch_set`, and the comparator write value equals the captured raw
comparator word. -/
theorem reset_catch_round_trip (enc1 : Nat → Except XmcError Nat)
    (enc2 : Nat → Nat) (mem : Nat → Nat)
    (slot0 : Option HaltAfterResetState)
    (hok : (reset_catch_set enc1 enc2 mem slot0).res = Except.ok ()) :
    reset_catch_clear (reset_catch_set enc1 enc2 mem slot0).slot =
      ⟨Except.ok (),
        [(FpCtrl.ADDRESS, fpCtrlRestore (FpCtrl.enable (mem FpCtrl.ADDRESS))),
         (FpRev1CompX.ADDRESS, mem FpRev1CompX.ADDRESS)], none⟩ ∧
    FpCtrl.enable (fpCtrlRestore (FpCtrl.enable (mem FpCtrl.ADDRESS))) =
      FpCtrl.enable (mem FpCtrl.ADDRESS) := by
  refine ⟨?_, fpCtrlRestore_enable _⟩
  have hslot : (reset_catch_set enc1 enc2 mem slot0).slot =
      some ⟨FpCtrl.enable (mem FpCtrl.ADDRESS), mem FpRev1CompX.ADDRESS⟩ := by
    rw [reset_catch_set_eq]
    cases henc : enc1 (xmcApplicationEntry (memAfterStcon mem)) <;> simp
  rw [hslot]
  rfl

/-- Witness for C1 at a concrete store and trivial encoders. -/
theorem reset_catch_round_trip_witness :
    (reset_catch_set (fun a => Except.ok a) (fun a => a)
        (fun _ => 0) none).res = Except.ok () ∧
    reset_catch_clear (reset_catch_set (fun a => Except.ok a) (fun a => a)
        (fun _ => 0) none).slot =
      ⟨Except.ok (), [(FpCtrl.ADDRESS, 2), (FpRev1CompX.ADDRESS, 0)], none⟩ :=
  ⟨rfl,
    (reset_catch_round_trip (fun a => Except.ok a) (fun a => a)
      (fun _ => 0) none rfl).1⟩

/-- C9: calling `reset_catch_set` while the slot is already occupied
overwrites it with the freshly captured enable flag and comparator word —
the resulting slot mentions nothing of the previously stored state — and
the call succeeds whenever the comparator encoder does. -/
theorem reset_catch_set_overwrites (enc1 : Nat → Except XmcError Nat)
    (enc2 : Nat → Nat) (mem : Nat → Nat) (old : HaltAfterResetState)
    (hok : ∃ v, enc1 (xmcApplicationEntry (memAfterStcon mem)) = Except.ok v) :
    (reset_catch_set enc1 enc2 mem (some old)).slot =
      some ⟨FpCtrl.enable (mem FpCtrl.ADDRESS), mem FpRev1CompX.ADDRESS⟩ ∧
    (reset_catch_set enc1 enc2 mem (some old)).res = Except.ok () := by
  obtain ⟨v, hv⟩ := hok
  rw [reset_catch_set_eq, hv]
  exact ⟨rfl, rfl⟩

/-- Witness for C9: a pre-existing slot with different field values is
replaced wholesale by the new capture. -/
theorem reset_catch_set_overwrites_witness :
    (reset_catch_set (fun a => Except.ok a) (fun a => a) (fun _ => 0)
        (some ⟨true, 55⟩)).slot = some ⟨false, 0⟩ ∧
    (reset_catch_set (fun a => Except.ok a) (fun a => a) (fun _ => 0)
        (some ⟨true, 55⟩)).res = Except.ok () :=
  reset_catch_set_overwrites (fun a => Except.ok a) (fun a => a)
    (fun _ => 0) ⟨true, 55⟩ ⟨1, rfl⟩

/-- C10: `reset_catch_clear` with an absent slot does not fail: it
substitutes the derived default, writing FP_CTRL with the enable flag
cleared and only the key bit set (word 2) and writing zero to the first
comparator slot, and it leaves the slot empty. -/
theorem reset_catch_clear_absent :
    reset_catch_clear none =
      ⟨Except.ok (), [(FpCtrl.ADDRESS, 2), (FpRev1CompX.ADDRESS, 0)], none⟩ ∧
    FpCtrl.enable 2 = false ∧ FpCtrl.key 2 = true :=
  ⟨rfl, by decide, by decide⟩

/-- A poll whose predicate holds for no observed sample and which observes
some sample past its deadline resolves to Timeout. -/
theorem pollBit_timeout_of (deadline : Nat) (pred : Nat → Bool)
    (hs : List (Nat × Nat)) (hall : ∀ p ∈ hs, pred p.2 = false)
    (hex : ∃ p ∈ hs, deadline < p.1) :
    pollBit deadline pred hs = some (Except.error XmcError.timeout) := by
  revert hall hex
  induction hs with
  | nil =>
    intro hall hex
    simp at hex
  | cons a rest ih =>
    intro hall hex
    obtain ⟨t, v⟩ := a
    have ha : pred v = false := hall (t, v) (List.mem_cons_self _ _)
    by_cases ht : deadline < t
    · simp [pollBit, ha, ht]
    · have hall2 : ∀ p ∈ rest, pred p.2 = false :=
        fun p hp => hall p (List.mem_cons_of_mem _ hp)
      have hex2 : ∃ p ∈ rest, deadline < p.1 := by
        rcases hex with ⟨p, hp, hdp⟩
        rcases List.mem_cons.mp hp with h | h
        · rw [h] at hdp
          exact absurd hdp ht
        · exact ⟨p, h, hdp⟩
      simp [pollBit, ha, ht, ih hall2 hex2]

/-- C3: `reset_system` gates the halt wait on the slot being present at the
time of the check.  When the S_RESET_ST and DAPSA polls succeed and the
slot is absent, the call succeeds without consuming any halt-status sample
(the result is the same for every halt trace); when the slot is present, it
additionally polls the S_HALT bit and fails with Timeout when the core is
never observed halted within the deadline. -/
theorem reset_system_halt_gating (rs ds : List (Nat × Nat))
    (h1 : pollBit 500 (fun v => !(Dhcsr.s_reset_st v)) rs =
      some (Except.ok ()))
    (h2 : pollBit 500 (fun v => v != 0) ds = some (Except.ok ())) :
    (∀ hs, (reset_system none rs ds hs).res = some (Except.ok ())) ∧
    (∀ st hs, (∀ p ∈ hs, Dhcsr.s_halt p.2 = false) →
      (∃ p ∈ hs, 1000 < p.1) →
      (reset_system (some st) rs ds hs).res =
        some (Except.error XmcError.timeout)) := by
  constructor
  · intro hs
    unfold reset_system
    rw [h1, h2]
    rfl
  · intro st hs hall hex
    unfold reset_system
    rw [h1, h2, pollBit_timeout_of 1000 _ hs hall hex]
    rfl

/-- Witness for C3 at concrete traces: with the slot absent the halt trace
is never consulted and the call succeeds; with the slot present and the
core never halting, the call times out. -/
theorem reset_system_halt_gating_witness :
    (reset_system none [(0, 0)] [(0, 1)] []).res = some (Except.ok ()) ∧
    (reset_system (some ⟨false, 0⟩) [(0, 0)] [(0, 1)] [(1500, 0)]).res =
      some (Except.error XmcError.timeout) :=
  ⟨(reset_system_halt_gating [(0, 0)] [(0, 1)] rfl rfl).1 [],
   (reset_system_halt_gating [(0, 0)] [(0, 1)] rfl rfl).2 ⟨false, 0⟩
     [(1500, 0)] (by decide) ⟨(1500, 0), by simp, by decide⟩⟩

/-- C5: the halt poll of `reset_system` measures its 1000 ms deadline from
the start of the DAPSA poll, not from its own start: on a trace where the
DAPSA poll succeeds at 550 ms and the core never halts, the halt poll fails
with Timeout at 1150 ms — only 600 ms, i.e. less than its configured
1000 ms, after it began. -/
theorem reset_system_halt_timeout_shared_start :
    (reset_system (some ⟨false, 0⟩) [(0, 0)]
        [(100, 0), (250, 0), (400, 0), (550, 1)]
        [(700, 0), (850, 0), (1000, 0), (1150, 0)]).res =
      some (Except.error XmcError.timeout) ∧
    (1150 : Nat) - 550 < 1000 :=
  ⟨rfl, by decide⟩

/-- C2: with pin readback supported, `reset_hardware_deassert` returns
Timeout even when the very first readback shows nRST high: the loop break
falls through to the unconditional error return. -/
theorem reset_hardware_deassert_always_times_out :
    (0x80 : Nat) ≠ 0xFFFFFFFF ∧
    Pins.nreset (0x80 % 256) = true ∧
    (reset_hardware_deassert 0x80 [(0, 0x80)]).res =
      Except.error XmcError.timeout :=
  ⟨by decide, by decide, rfl⟩

/-- C8: when the initial `swj_pins` readback is the sentinel 0xFFFF_FFFF,
`reset_hardware_deassert` performs no readback poll, sleeps exactly the
fixed 100 ms settle delay, and returns success, whatever readbacks a poll
would have seen. -/
theorem reset_hardware_deassert_sentinel (samples : List (Nat × Nat)) :
    reset_hardware_deassert 0xFFFFFFFF samples =
      ⟨Except.ok (), 100, 0⟩ := by
  unfold reset_hardware_deassert
  rw [if_neg (by decide : ¬((0xFFFFFFFF : Nat) ≠ 0xFFFFFFFF))]

/-- C4: the revision branch of `reset_catch_set` is dead: it reads
`fp_ctrl.rev()` from the freshly constructed enable+key word (always
revision 0), not from the value read back from hardware.  With the hardware
reporting revision 1, the call still succeeds and writes the rev-1-style
encoding (here `entry + 1000`), not the rev-2-style one (`entry + 2000`). -/
theorem reset_catch_set_rev_check_dead :
    FpCtrl.rev ((fun a => if a = FpCtrl.ADDRESS then 0x10000003 else 0)
        FpCtrl.ADDRESS) = 1 ∧
    (reset_catch_set (fun a => Except.ok (a + 1000)) (fun a => a + 2000)
        (fun a => if a = FpCtrl.ADDRESS then 0x10000003 else 0) none).res =
      Except.ok () ∧
    (reset_catch_set (fun a => Except.ok (a + 1000)) (fun a => a + 2000)
        (fun a => if a = FpCtrl.ADDRESS then 0x10000003 else 0) none).writes =
      [(FpCtrl.ADDRESS, 3), (FpRev1CompX.ADDRESS, 1001)] ∧
    (1001 : Nat) ≠ 2001 :=
  ⟨by decide, rfl, rfl, by decide⟩

/-- C7: for an even 32-bit word V in the fixed boot-ROM vector slot at
0x0C000004, the breakpoint target `reset_catch_set` computes (on the store
it sees after boot-mode normalization) equals V + 1. -/
theorem application_entry_plus_one (mem : Nat → Nat)
    (heven : Even (mem 0x0C000004)) (hlt : mem 0x0C000004 < 2 ^ 32) :
    xmcApplicationEntry (memAfterStcon mem) = mem 0x0C000004 + 1 := by
  have h := memAfterStcon_apply mem 0x0C000004 (by decide)
  unfold xmcApplicationEntry
  rw [h]
  have hpow : (2 : Nat) ^ 32 = 4294967296 := by norm_num
  obtain ⟨k, hk⟩ := heven
  have hlt2 : mem 0x0C000004 + 1 < 2 ^ 32 := by
    rw [hpow] at hlt ⊢
    omega
  exact Nat.mod_eq_of_lt hlt2

/-- Witness for C7 at the all-zero store: the vector slot reads 0 (even)
and the computed breakpoint target is 1. -/
theorem application_entry_plus_one_witness :
    Even ((fun _ => (0 : Nat)) 0x0C000004) ∧
    ((fun _ => (0 : Nat)) 0x0C000004) < 2 ^ 32 ∧
    xmcApplicationEntry (memAfterStcon (fun _ => 0)) = 1 :=
  ⟨⟨0, rfl⟩, by norm_num,
    application_entry_plus_one (fun _ => 0) ⟨0, rfl⟩ (by norm_num)⟩

/-- Writing zero into the `swcon` field reduces to masking bits 11:8 off. -/
theorem set_swcon_zero_eq (x : Nat) :
    Stcon.set_swcon x 0 = x &&& 0xFFFFF0FF := by
  unfold Stcon.set_swcon
  simp

/-- The `swcon` field of the normalized STCON word is zero. -/
theorem swcon_set_swcon_zero (x : Nat) :
    Stcon.swcon (Stcon.set_swcon x 0) = 0 := by
  rw [set_swcon_zero_eq]
  unfold Stcon.swcon
  apply Nat.eq_of_testBit_eq
  intro i
  rw [Nat.testBit_land, Nat.testBit_shiftRight, Nat.testBit_land,
    Nat.zero_testBit]
  by_cases hi : i < 4
  · have hm : (0xFFFFF0FF : Nat).testBit (8 + i) = false := by
      interval_cases i <;> decide
    simp [hm]
  · have hm : (0xF : Nat).testBit i = false := by
      apply Nat.testBit_eq_false_of_lt
      calc (0xF : Nat) < 2 ^ 4 := by norm_num
        _ ≤ 2 ^ i := Nat.pow_le_pow_right (by norm_num) (by omega)
    simp [hm]

/-- The power-on-latched `hwcon` field survives the swcon-clearing write. -/
theorem hwcon_set_swcon_zero (x : Nat) :
    Stcon.hwcon (Stcon.set_swcon x 0) = Stcon.hwcon x := by
  rw [set_swcon_zero_eq]
  unfold Stcon.hwcon
  apply Nat.eq_of_testBit_eq
  intro i
  rw [Nat.testBit_land, Nat.testBit_land, Nat.testBit_land]
  by_cases hi : i < 2
  · have hm : (0xFFFFF0FF : Nat).testBit i = true := by
      interval_cases i <;> decide
    simp [hm]
  · have h3 : (0x3 : Nat).testBit i = false := by
      apply Nat.testBit_eq_false_of_lt
      calc (0x3 : Nat) < 2 ^ 2 := by norm_num
        _ ≤ 2 ^ i := Nat.pow_le_pow_right (by norm_num) (by omega)
    simp [h3]

/-- Every bit outside the `swcon` field (bits 11:8) of a 32-bit STCON word
survives the swcon-clearing write. -/
theorem testBit_set_swcon_zero (x i : Nat) (hx : x < 2 ^ 32)
    (hi : ¬(8 ≤ i ∧ i ≤ 11)) :
    (Stcon.set_swcon x 0).testBit i = x.testBit i := by
  rw [set_swcon_zero_eq, Nat.testBit_land]
  by_cases h32 : i < 32
  · have hm : (0xFFFFF0FF : Nat).testBit i = true := by
      interval_cases i <;> first
        | decide
        | exact absurd ⟨by omega, by omega⟩ hi
    simp [hm]
  · have hx2 : x.testBit i = false := by
      apply Nat.testBit_eq_false_of_lt
      calc x < 2 ^ 32 := hx
        _ ≤ 2 ^ i := Nat.pow_le_pow_right (by norm_num) (by omega)
    have hm : (0xFFFFF0FF : Nat).testBit i = false := by
      apply Nat.testBit_eq_false_of_lt
      calc (0xFFFFF0FF : Nat) < 2 ^ 32 := by norm_num
        _ ≤ 2 ^ i := Nat.pow_le_pow_right (by norm_num) (by omega)
    simp [hx2, hm]

/-- C6: `reset_catch_set` changes at most the `swcon` sub-field of STCON:
with `swcon` already zero it issues no STCON write at all, and otherwise
the single value written back has `swcon` cleared, the power-on-latched
`hwcon` sub-field intact, and every bit outside bits 11:8 identical to the
value read. -/
theorem reset_catch_set_stcon_frame (enc1 : Nat → Except XmcError Nat)
    (enc2 : Nat → Nat) (mem : Nat → Nat)
    (slot0 : Option HaltAfterResetState)
    (hx : mem Stcon.ADDRESS < 2 ^ 32) :
    (Stcon.swcon (mem Stcon.ADDRESS) = 0 →
      (reset_catch_set enc1 enc2 mem slot0).writes.filter
        (fun p => p.1 == Stcon.ADDRESS) = []) ∧
    (Stcon.swcon (mem Stcon.ADDRESS) ≠ 0 →
      (reset_catch_set enc1 enc2 mem slot0).writes.filter
          (fun p => p.1 == Stcon.ADDRESS) =
        [(Stcon.ADDRESS, Stcon.set_swcon (mem Stcon.ADDRESS) 0)] ∧
      Stcon.swcon (Stcon.set_swcon (mem Stcon.ADDRESS) 0) = 0 ∧
      Stcon.hwcon (Stcon.set_swcon (mem Stcon.ADDRESS) 0) =
        Stcon.hwcon (mem Stcon.ADDRESS) ∧
      ∀ i, ¬(8 ≤ i ∧ i ≤ 11) →
        (Stcon.set_swcon (mem Stcon.ADDRESS) 0).testBit i =
          (mem Stcon.ADDRESS).testBit i) := by
  have hfil : (reset_catch_set enc1 enc2 mem slot0).writes.filter
      (fun p => p.1 == Stcon.ADDRESS) =
      (stconNormWrites mem).filter (fun p => p.1 == Stcon.ADDRESS) := by
    rw [reset_catch_set_eq]
    cases henc : enc1 (xmcApplicationEntry (memAfterStcon mem)) <;>
      simp [List.filter_append] <;> decide
  constructor
  · intro h0
    rw [hfil]
    simp [stconNormWrites, h0]
  · intro hne
    refine ⟨?_, swcon_set_swcon_zero _, hwcon_set_swcon_zero _,
      fun i hi => testBit_set_swcon_zero _ i hx hi⟩
    rw [hfil]
    simp [stconNormWrites, hne]

/-- Witness for C6 at a store whose STCON reads 0x300 (swcon = 3): the one
STCON write carries the swcon-cleared word. -/
theorem reset_catch_set_stcon_frame_witness :
    ((fun _ => (0x300 : Nat)) Stcon.ADDRESS < 2 ^ 32) ∧
    Stcon.swcon ((fun _ => (0x300 : Nat)) Stcon.ADDRESS) ≠ 0 ∧
    (reset_catch_set (fun a => Except.ok a) (fun a => a) (fun _ => 0x300)
        none).writes.filter (fun p => p.1 == Stcon.ADDRESS) =
      [(Stcon.ADDRESS, Stcon.set_swcon 0x300 0)] :=
  ⟨by norm_num, by decide,
    ((reset_catch_set_stcon_frame (fun a => Except.ok a) (fun a => a)
      (fun _ => 0x300) none (by norm_num)).2 (by decide)).1⟩
